import Mathlib

/-!
Verification of the pdf2json invoice parser against its specification.

The Python sources (`invoice_parser.py`, `app.py`) are shallowly embedded
below.  Machine floats are modelled as rationals; Python strings are
modelled by Lean strings and all string algorithms are defined over the
underlying character lists.  Python's Unicode-aware character classes
(`\d`, `str.isdigit`, whitespace) are modelled by their ASCII restriction,
which is exact on every input appearing in the claims.
-/

namespace Pdf2Json

/-- A character kept by the number-normalizer regex `[^\d,.\-]` in
`parse_number` (`invoice_parser.py`, line 28). -/
def numChar (c : Char) : Bool :=
  c.isDigit || c = ',' || c = '.' || c = '-'

/-- Comma-to-dot normalization used in `parse_number`
(`invoice_parser.py`, line 31). -/
def commaToDot (c : Char) : Char :=
  if c = ',' then '.' else c

/-- Decimal value of a digit list, most significant first. -/
def natOfDigits (l : List Char) : Nat :=
  l.foldl (fun a c => 10 * a + (c.toNat - 48)) 0

/-- Python `float()` on an unsigned string made of digits and dots:
accepts `digits`, `digits.`, `digits.digits`, `.digits`; rejects anything
else (two dots, a stray sign, an empty string, a lone dot).  The value
`intpart.fracpart` is built as a single exact rational. -/
def pyFloatCore (l : List Char) : Option Rat :=
  let intp := l.takeWhile Char.isDigit
  let rest := l.dropWhile Char.isDigit
  match rest with
  | [] => if intp.isEmpty then none else some (mkRat (natOfDigits intp) 1)
  | '.' :: frac =>
    if frac.all Char.isDigit && !(intp.isEmpty && frac.isEmpty) then
      some (mkRat (natOfDigits intp * 10 ^ frac.length + natOfDigits frac)
        (10 ^ frac.length))
    else none
  | _ => none

/-- Python `float()` on a character list: optional sign, then `pyFloatCore`.
Exponent, `inf`/`nan` forms never occur on the inputs fed to it here. -/
def pyFloatOfChars (l : List Char) : Option Rat :=
  match l with
  | c :: t =>
    if c = '-' then (pyFloatCore t).map (fun q => -q)
    else if c = '+' then pyFloatCore t
    else pyFloatCore (c :: t)
  | [] => none

/-- `parse_number` (`invoice_parser.py`, lines 24-35): return a rational if
the string looks numeric, otherwise `none`.  Strips every character
outside `[0-9,.\-]`, fails on an empty remainder, replaces `,` by `.` and
parses a float. -/
def parse_number (raw : String) : Option Rat :=
  if raw = "" then none
  else
    let cleaned := raw.data.filter numChar
    if cleaned = [] then none
    else pyFloatOfChars (cleaned.map commaToDot)

/-- Full match of `\d+(?:[.,]\d+)?`: a digit run, optionally followed by a
separator and a second digit run. -/
def unsignedNumTok (l : List Char) : Bool :=
  let intp := l.takeWhile Char.isDigit
  let rest := l.dropWhile Char.isDigit
  !intp.isEmpty &&
    (rest.isEmpty ||
      (match rest with
       | c :: t => (c = '.' || c = ',') && (!t.isEmpty && t.all Char.isDigit)
       | [] => false))

/-- `is_number_token` (`invoice_parser.py`, line 38): full match of
`-?\d+(?:[.,]\d+)?`. -/
def is_number_token (s : String) : Bool :=
  match s.data with
  | c :: t => if c = '-' then unsignedNumTok t else unsignedNumTok (c :: t)
  | [] => false

/-- `is_percent_token` (`invoice_parser.py`, line 42): full match of
`\d+(?:,\d+)?%`. -/
def is_percent_token (s : String) : Bool :=
  match s.data.reverse with
  | '%' :: restRev =>
    let l := restRev.reverse
    let intp := l.takeWhile Char.isDigit
    let rest := l.dropWhile Char.isDigit
    !intp.isEmpty &&
      (rest.isEmpty ||
        (match rest with
         | c :: t => c = ',' && (!t.isEmpty && t.all Char.isDigit)
         | [] => false))
  | _ => false

/-- Python `str.split()` with no separator: split on whitespace runs,
dropping empty tokens.  `acc` holds the current token, reversed. -/
def splitWsGo (acc : List Char) : List Char → List String
  | [] => if acc.isEmpty then [] else [String.mk acc.reverse]
  | c :: rest =>
    if c.isWhitespace then
      (if acc.isEmpty then [] else [String.mk acc.reverse]) ++ splitWsGo [] rest
    else splitWsGo (c :: acc) rest

/-- Python `text.split()` as used by `parse_invoice_line` and
`looks_like_reference_line`. -/
def pySplit (s : String) : List String :=
  splitWsGo [] s.data

/-- Python `str.strip()`: trim whitespace at both ends. -/
def pyStrip (s : String) : String :=
  String.mk (((s.data.dropWhile Char.isWhitespace).reverse.dropWhile
    Char.isWhitespace).reverse)

/-- Python `" ".join(tokens)`. -/
def joinSpace : List String → String
  | [] => ""
  | [t] => t
  | t :: rest => t ++ " " ++ joinSpace rest

/-- Does a token contain a decimal separator (`,` or `.`)?  Embeds the
checks at `invoice_parser.py`, lines 65-68. -/
def strHasSep (s : String) : Bool :=
  s.data.any (fun c => c = ',' || c = '.')

/-- Does a string contain at least one digit (`any(ch.isdigit() ...)`)? -/
def strHasDigit (s : String) : Bool :=
  s.data.any Char.isDigit

/-- The dictionary returned by `parse_invoice_line`
(`invoice_parser.py`, lines 78-86).  The three numeric fields hold the
`parse_number` results exactly as the source stores them. -/
structure InvoiceLine where
  reference : String
  description : String
  quantity : Option Rat
  unit_price : Option Rat
  line_total : Option Rat
  tva : Option String
  raw : String
deriving DecidableEq, Repr

/-- `parse_invoice_line` (`invoice_parser.py`, lines 46-86): parse a single
invoice line formatted as `REF DESC QTE PU MONTANT [TVA%]`. -/
def parse_invoice_line (text : String) : Option InvoiceLine :=
  let tokens0 := pySplit text
  if tokens0.length < 5 then none
  else
    let tva := match tokens0.getLast? with
      | some t => if is_percent_token t then some t else none
      | none => none
    let tokens := match tva with | some _ => tokens0.dropLast | none => tokens0
    if tokens.length < 4 then none
    else
      match tokens.reverse with
      | amountTok :: unitTok :: qtyTok :: headRev =>
        if !(is_number_token amountTok && is_number_token unitTok &&
            is_number_token qtyTok) then none
        else if !strHasSep unitTok then none
        else if !strHasSep amountTok then none
        else
          match headRev.reverse with
          | ref :: descTokens =>
            if !strHasDigit ref then none
            else if descTokens.isEmpty then none
            else some
              { reference := ref
                description := joinSpace descTokens
                quantity := parse_number qtyTok
                unit_price := parse_number unitTok
                line_total := parse_number amountTok
                tva := tva
                raw := text }
          | [] => none
      | _ => none

/-- `looks_like_reference_line` (`invoice_parser.py`, lines 89-95): the
first whitespace-delimited token contains at least one digit. -/
def looks_like_reference_line (text : String) : Bool :=
  match pySplit text with
  | [] => false
  | first :: _ => strHasDigit first

/-- Lower-case a string (ASCII), modelling Python `str.lower()` and the
effect of `re.IGNORECASE` on the ASCII-only ignore keywords. -/
def strLower (s : String) : String :=
  String.mk (s.data.map Char.toLower)

/-- Does `need` occur as a contiguous run at some position of `hay`? -/
def hasSubstr (need : List Char) : List Char → Bool
  | [] => need.isPrefixOf []
  | c :: rest => need.isPrefixOf (c :: rest) || hasSubstr need rest

/-- Case-insensitive substring containment, the semantics of
`re.search(keyword, candidate, re.IGNORECASE)` for a keyword free of regex
metacharacters. -/
def strContainsCI (hay need : String) : Bool :=
  hasSubstr (need.data.map Char.toLower) (hay.data.map Char.toLower)

/-- The `ignore_parts` keyword list (`invoice_parser.py`, lines 152-166):
a fixed base set plus a document-type-specific addition. -/
def ignoreParts (templateType : String) : List String :=
  let base := ["REFERENCE DESIGNATION", "Bon de livraison", "Commande client",
    "Sous Total", "Total TTC", "Total HT", "RIB"]
  if strLower templateType = "facture" then base ++ ["Facture"]
  else if strLower templateType = "avoir" then base ++ ["Avoir"]
  else base ++ ["Facture", "Avoir"]

/-- The ignore filter (`invoice_parser.py`, line 168):
`re.search("|".join(ignore_parts), candidate, re.IGNORECASE)`.  The
keywords contain no regex metacharacters, so the alternation matches iff
some keyword occurs as a case-insensitive substring. -/
def ignoreMatch (templateType candidate : String) : Bool :=
  (ignoreParts templateType).any (fun kw => strContainsCI candidate kw)

/-- One element of the `lines` output of `extract_invoice_lines`
(`invoice_parser.py`, lines 176-191).  `candidate` is the single column
value stored under `columns`; `payload` is the parsed dictionary. -/
structure LineRec where
  page : Nat
  row : Nat
  candidate : String
  payload : InvoiceLine
deriving DecidableEq, Repr

/-- The per-page loop body of `extract_invoice_lines`
(`invoice_parser.py`, lines 137-195): classifier, ignore filter and
tokenizer driven over the page's raw lines, threading the candidate
buffer and the row counter. -/
def processLines (templateType : String) (page : Nat) :
    String → Nat → List String → List LineRec
  | _, _, [] => []
  | buffer, rowCounter, rawLine :: rest =>
    let cleaned := pyStrip rawLine
    if cleaned = "" then processLines templateType page buffer rowCounter rest
    else
      -- A new-reference line resets the buffer and becomes the candidate by
      -- itself; the reset has no further effect because every subsequent
      -- path overwrites the buffer (ignore and emission clear it, a failed
      -- parse sets it to the candidate), so it is folded into the
      -- candidate computation.
      let candidate :=
        if looks_like_reference_line cleaned then cleaned
        else if buffer = "" then cleaned
        else pyStrip (buffer ++ " " ++ cleaned)
      if ignoreMatch templateType candidate then
        processLines templateType page "" rowCounter rest
      else
        match parse_invoice_line candidate with
        | some parsed =>
          ⟨page, rowCounter + 1, candidate, parsed⟩ ::
            processLines templateType page "" (rowCounter + 1) rest
        | none => processLines templateType page candidate rowCounter rest

/-- Python `str.splitlines()` restricted to `\n` separators.  It differs
from Python only in emitting a final empty piece after a trailing newline
(and one empty piece for the empty text); those pieces are blank and are
skipped by the pipeline's blank-line test, so the difference is inert. -/
def splitLinesGo (acc : List Char) : List Char → List String
  | [] => [String.mk acc.reverse]
  | c :: rest =>
    if c = '\n' then String.mk acc.reverse :: splitLinesGo [] rest
    else splitLinesGo (c :: acc) rest

/-- `text.splitlines()` on a page's extracted text. -/
def splitLines (s : String) : List String :=
  splitLinesGo [] s.data

/-- One page of `extract_invoice_lines`: fresh buffer and a row counter
reset to 0 (`invoice_parser.py`, lines 137-138). -/
def processPage (templateType : String) (page : Nat) (text : String) :
    List LineRec :=
  processLines templateType page "" 0 (splitLines text)

/-- The page loop of `extract_invoice_lines` (`invoice_parser.py`,
line 135): `enumerate(pdf.pages, start=1)`. -/
def extractFrom (templateType : String) : Nat → List String → List LineRec
  | _, [] => []
  | page, text :: rest =>
    processPage templateType page text ++ extractFrom templateType (page + 1) rest

/-- `extract_invoice_lines` (`invoice_parser.py`, lines 127-196) as a
function of the per-page texts produced by the out-of-scope page-text
provider (pdfplumber, a collaborator per the spec). -/
def extract_invoice_lines (pages : List String) (templateType : String) :
    List LineRec :=
  extractFrom templateType 1 pages

/-- A Python scalar value as found in the JSON product payloads.  `null`
values are modelled as absent keys: `dict.get` returns `None` for both and
every use in the source (truthiness, `is None`) treats them alike. -/
inductive PyVal where
  | vstr (s : String)
  | vnum (q : Rat)
deriving DecidableEq, Repr

/-- Python truthiness of a scalar: empty string and zero are falsy. -/
def pyTruthy : PyVal → Bool
  | .vstr s => s ≠ ""
  | .vnum q => q ≠ 0

/-- Truthiness of a `dict.get` result: `None` is falsy. -/
def optTruthy : Option PyVal → Bool
  | none => false
  | some v => pyTruthy v

/-- Python `a or b` on `dict.get` results: the first operand when truthy,
else the second operand (even if that one is falsy or `None`). -/
def pyOr (a b : Option PyVal) : Option PyVal :=
  match a with
  | some v => if pyTruthy v then some v else b
  | none => b

/-- Python `str()` of a scalar.  Integral numbers print as integers, as
JSON integers do; the printing of non-integral numbers is irrelevant to
every claim and is given a simple canonical form. -/
def pyStr : PyVal → String
  | .vstr s => s
  | .vnum q => if q.den = 1 then toString q.num else toString q

/-- A product entry: a JSON object, modelled as its key/value pairs. -/
abbrev Product : Type := List (String × PyVal)

/-- Python `dict.get(key)` on a JSON object (keys are unique, so the
first match is the match). -/
def pGet (p : Product) (k : String) : Option PyVal :=
  (p.find? (fun e => e.1 = k)).map (fun e => e.2)

/-- The `{id, stock}` value stored in the product index
(`invoice_parser.py`, line 419). -/
structure IndexEntry where
  id : String
  stock : Option PyVal
deriving DecidableEq, Repr

/-- A Python dict from strings to index entries, modelled as the list of
assignments in order; lookup takes the latest assignment. -/
abbrev Dict : Type := List (String × IndexEntry)

/-- Python `d[k] = v` (insertion order is irrelevant to lookups). -/
def dictSet (d : Dict) (k : String) (v : IndexEntry) : Dict :=
  d ++ [(k, v)]

/-- Python `d.get(k)`: the last assignment to `k`, if any. -/
def dictGet (d : Dict) (k : String) : Option IndexEntry :=
  (d.reverse.find? (fun e => e.1 = k)).map (fun e => e.2)

/-- The per-product step of `build_product_index`
(`invoice_parser.py`, lines 412-419): resolve code, id and stock and
produce the key/entry pair, or nothing when `code and pid` is falsy. -/
def resolveEntry (p : Product) : Option (String × IndexEntry) :=
  let code := pyOr (pyOr (pGet p "product_code") (pGet p "code")) (pGet p "reference")
  let pid := pyOr (pGet p "id") (pGet p "product_id")
  match code, pid with
  | some cv, some iv =>
    if pyTruthy cv && pyTruthy iv then
      let stock := match pGet p "stock" with
        | some v => some v
        | none =>
          pyOr (pyOr (pGet p "quantity") (pGet p "stock_quantity"))
            (pGet p "stock_level")
      some ((pyStrip (pyStr cv)), ⟨pyStr iv, stock⟩)
    else none
  | _, _ => none

/-- `build_product_index` (`invoice_parser.py`, lines 409-420). -/
def build_product_index (products : List Product) : Dict :=
  products.foldl
    (fun idx p =>
      match resolveEntry p with
      | some (k, v) => dictSet idx k v
      | none => idx)
    []

/-- A JSON value, for the lookup-response bodies. -/
inductive Json where
  | jnull
  | jbool (b : Bool)
  | jnum (q : Rat)
  | jstr (s : String)
  | jarr (items : List Json)
  | jobj (fields : List (String × Json))

/-- Key lookup in a JSON object (`"id" in data` / `data["id"]`). -/
def jGet (fields : List (String × Json)) (k : String) : Option Json :=
  (fields.find? (fun e => e.1 = k)).map (fun e => e.2)

/-- Python `str()` of the JSON value found under `id`.  The `repr`-style
printing of composite values is never exercised by the claims and is given
a canonical placeholder. -/
def jStr : Json → String
  | .jstr s => s
  | .jnum q => if q.den = 1 then toString q.num else toString q
  | .jbool b => if b then "True" else "False"
  | .jnull => "None"
  | .jarr _ => "[...]"
  | .jobj _ => "{...}"

/-- What the single-item lookup request produced, from the point of view
of `fetch_reference_id`: a transport-layer exception (including a non-2xx
raised by `raise_for_status`), a body that fails JSON decoding, or a
decoded JSON value.  The HTTP client is an out-of-scope collaborator per
the spec, so it enters as a parameter. -/
inductive RespOutcome where
  | transportError (msg : String)
  | nonJson (msg : String)
  | json (v : Json)

/-- Truthiness of an optional string (`if lookup_url`, `if lookup_id`,
`if info`). -/
def optStrTruthy : Option String → Bool
  | none => false
  | some s => s ≠ ""

/-- `fetch_reference_id` (`invoice_parser.py`, lines 199-231), with the
network call abstracted into the `resp` outcome; the `{reference}` URL
substitution only shapes the request and is absorbed into `resp`. -/
def fetch_reference_id (lookupUrl : Option String) (resp : RespOutcome) :
    Option String × String × Option String :=
  if !optStrTruthy lookupUrl then (none, "skipped_no_lookup_url", none)
  else
    match resp with
    | .transportError e => (none, "http_error", some e)
    | .nonJson e => (none, "invalid_json", some e)
    | .json data =>
      match data with
      | .jobj fields =>
        match jGet fields "id" with
        | some idv => (some (jStr idv), "ok", none)
        | none =>
          match jGet fields "data" with
          | some (.jobj inner) =>
            match jGet inner "id" with
            | some idv => (some (jStr idv), "ok", none)
            | none => (none, "no_id", none)
          | some (.jarr (first :: _)) =>
            match first with
            | .jobj ff =>
              match jGet ff "id" with
              | some idv => (some (jStr idv), "ok", none)
              | none => (none, "no_id", none)
            | _ => (none, "no_id", none)
          | _ => (none, "no_id", none)
      | .jarr (first :: _) =>
        match first with
        | .jobj ff =>
          match jGet ff "id" with
          | some idv => (some (jStr idv), "ok", none)
          | none => (none, "no_id", none)
        | _ => (none, "no_id", none)
      | _ => (none, "no_id", none)

/-- The optional fields the resolver and reconciler write into a record's
payload (`invoice_parser.py`, lines 570-599). -/
structure Resolution where
  lookup_status : Option String := none
  lookup_info : Option String := none
  initial_stock : Option PyVal := none
  lookup_id : Option String := none
deriving DecidableEq, Repr

/-- The body of the resolver loop for one record with a truthy reference
(`invoice_parser.py`, lines 578-599): local index first, then the remote
lookup, statuses attached only under the verbose flag. -/
def resolvePayload (lookupUrl : Option String) (index : Dict)
    (net : RespOutcome) (verbose : Bool) (ref : String) : Resolution :=
  let st0 : Resolution := {}
  let step1 : Option String × Resolution :=
    if index ≠ [] then
      match dictGet index (pyStrip ref) with
      | some entry =>
        let stA := if optStrTruthy (some entry.id) && verbose then
            { st0 with lookup_status := some "from_cache" } else st0
        let stB := if entry.stock ≠ none then
            { stA with initial_stock := entry.stock } else stA
        (some entry.id, stB)
      | none => (none, st0)
    else (none, st0)
  let step2 : Option String × Resolution :=
    if !optStrTruthy step1.1 && optStrTruthy lookupUrl then
      let fr := fetch_reference_id lookupUrl net
      let fid := fr.1
      let status := fr.2.fst
      let info := fr.2.snd
      let stA := if verbose then
          { step1.2 with
            lookup_status := some status
            lookup_info := if optStrTruthy info then info
              else step1.2.lookup_info } else step1.2
      (fid, stA)
    else step1
  if optStrTruthy step2.1 then { step2.2 with lookup_id := step2.1 }
  else step2.2

/-- The resolver phase of `main` (`invoice_parser.py`, lines 570-599):
the whole loop is guarded by `if lookup_url:`; with no configured lookup
URL the payloads are left untouched.  `net` gives the response the remote
lookup would produce for a reference. -/
def resolveAll (lookupUrl : Option String) (index : Dict)
    (net : String → RespOutcome) (verbose : Bool) (recs : List LineRec) :
    List Resolution :=
  if optStrTruthy lookupUrl then
    recs.map (fun r =>
      let ref := r.payload.reference
      if ref = "" then
        if verbose then { lookup_status := some "skipped_no_reference" }
        else {}
      else resolvePayload lookupUrl index (net ref) verbose ref)
  else recs.map (fun _ => {})

/-- Python `float()` applied to a stored scalar (`float(initial_stock)`,
`invoice_parser.py`, line 615).  Numbers convert to themselves; strings
are stripped and parsed. -/
def pyFloatOfVal : PyVal → Option Rat
  | .vnum q => some q
  | .vstr s => pyFloatOfChars (pyStrip s).data

/-- The stock delta of the reconciler (`invoice_parser.py`, line 609):
`-abs(qty)` for a "facture" run, `+abs(qty)` otherwise (argparse limits
the type to "facture" or "avoir"). -/
def stockDelta (templateType : String) (qty : Rat) : Rat :=
  if templateType = "facture" then -|qty| else |qty|

/-- The new stock computed by the reconciler (`invoice_parser.py`,
lines 611-619): `float(initial_stock) + delta` when the initial stock is
present and converts, else the delta alone. -/
def newStock (initialStock : Option PyVal) (delta : Rat) : Rat :=
  match initialStock with
  | some v =>
    match pyFloatOfVal v with
    | some f => f + delta
    | none => delta
  | none => delta

/-- `map_doc_type` (`app.py`, lines 30-34). -/
def map_doc_type (docType : String) : String :=
  if strLower docType = "avoir" then "avoir" else "facture"

/-- The reduced triple returned across the REST boundary
(`app.py`, lines 20-23). -/
structure ParsedLine where
  reference : String
  description : String
  quantity : Rat
deriving DecidableEq, Repr

/-- The response-building loop of `parse_pdf` (`app.py`, lines 51-58):
keep one `{reference, description, quantity}` triple per extracted line,
skipping records with a falsy reference or a missing quantity. -/
def parse_pdf_lines (lines : List LineRec) : List ParsedLine :=
  lines.filterMap (fun line =>
    let ref := line.payload.reference
    let desc := line.payload.description
    match line.payload.quantity with
    | none => none
    | some q => if ref = "" then none else some ⟨ref, desc, q⟩)

/-- Modelled from the spec (§4.1), for the refinement claim about the
Number Normalizer: strip every character outside `[0-9,.\-]`, fail on an
empty remainder, replace commas by dots and parse a float. -/
def parseNumberSpec (raw : String) : Option Rat :=
  let cleaned := raw.data.filter numChar
  if cleaned = [] then none
  else pyFloatOfChars (cleaned.map commaToDot)

/-- Modelled from the spec (§3/§4.6), for the refinement claim about the
product index: first-truthy alias precedence for code and id. -/
def firstTruthy : List (Option PyVal) → Option PyVal
  | [] => none
  | a :: rest => match a with
    | some v => if pyTruthy v then some v else firstTruthy rest
    | none => firstTruthy rest

/-- Modelled from the spec (§4.6, amended): an entry is indexed iff both a
code alias and an id alias resolve to a truthy value; the stock is the
`stock` key when present, else the or-chain over the remaining aliases. -/
def specResolveEntry (p : Product) : Option (String × IndexEntry) :=
  match firstTruthy [pGet p "product_code", pGet p "code", pGet p "reference"],
      firstTruthy [pGet p "id", pGet p "product_id"] with
  | some cv, some iv =>
    some (pyStrip (pyStr cv),
      ⟨pyStr iv,
        match pGet p "stock" with
        | some v => some v
        | none =>
          pyOr (pyOr (pGet p "quantity") (pGet p "stock_quantity"))
            (pGet p "stock_level")⟩)
  | _, _ => none

/-- Modelled from the spec (§4.6): the index as a lookup function, built
by insertion-order overwrites, so the last entry for a code wins. -/
def specIndexFun (products : List Product) : String → Option IndexEntry :=
  products.foldl
    (fun f p =>
      match specResolveEntry p with
      | some (k, v) => fun s => if s = k then some v else f s
      | none => f)
    (fun _ => none)

/-- Modelled from the spec (§4.7), for the refinement claim about the
lookup-response shapes: the ordered list of shape extractors, first match
wins. -/
def specShapeId (data : Json) : Option Json :=
  let shape1 := match data with
    | .jobj fields => jGet fields "id"
    | _ => none
  let shape2 := match data with
    | .jobj fields =>
      match jGet fields "data" with
      | some (.jobj inner) => jGet inner "id"
      | _ => none
    | _ => none
  let shape3 := match data with
    | .jobj fields =>
      match jGet fields "data" with
      | some (.jarr ((.jobj ff) :: _)) => jGet ff "id"
      | _ => none
    | _ => none
  let shape4 := match data with
    | .jarr ((.jobj ff) :: _) => jGet ff "id"
    | _ => none
  (shape1.or (shape2.or (shape3.or shape4)))

/-- A concrete parsed record, used by witnesses:
the parse of `"X1 widget 2 1,5 3,0"`. -/
def sampleLine : InvoiceLine :=
  { reference := "X1"
    description := "widget"
    quantity := some (mkRat 2 1)
    unit_price := some (mkRat 15 10)
    line_total := some (mkRat 30 10)
    tva := none
    raw := "X1 widget 2 1,5 3,0" }

/-- A concrete pipeline record wrapping `sampleLine`, used by witnesses. -/
def sampleRec : LineRec :=
  { page := 1, row := 1, candidate := "X1 widget 2 1,5 3,0",
    payload := sampleLine }

end Pdf2Json

namespace Pdf2Json

/-! ### Helper lemmas -/

theorem filter_eq_self_of_all (p : Char → Bool) :
    ∀ l : List Char, l.all p = true → l.filter p = l := by
  intro l hl
  induction l with
  | nil => rfl
  | cons c t ih =>
    rw [List.all_cons, Bool.and_eq_true] at hl
    simp [List.filter_cons, hl.1, ih hl.2]

theorem tw_append {p : Char → Bool} :
    ∀ l r : List Char, l.all p = true →
      (∀ c tl, r = c :: tl → p c = false) →
      (l ++ r).takeWhile p = l ∧ (l ++ r).dropWhile p = r := by
  intro l
  induction l with
  | nil =>
    intro r _ hr
    cases r with
    | nil => exact ⟨rfl, rfl⟩
    | cons c tl =>
      simp [List.takeWhile_cons, List.dropWhile_cons, hr c tl rfl]
  | cons a l ih =>
    intro r hl hr
    rw [List.all_cons, Bool.and_eq_true] at hl
    have h := ih r hl.2 hr
    simp [List.takeWhile_cons, List.dropWhile_cons, hl.1, h.1, h.2]

theorem digit_ne_comma {c : Char} (h : c.isDigit = true) : c ≠ ',' := by
  intro he; subst he; exact absurd h (by decide)

theorem digit_ne_minus {c : Char} (h : c.isDigit = true) : c ≠ '-' := by
  intro he; subst he; exact absurd h (by decide)

theorem digit_ne_plus {c : Char} (h : c.isDigit = true) : c ≠ '+' := by
  intro he; subst he; exact absurd h (by decide)

theorem digit_numChar {c : Char} (h : c.isDigit = true) : numChar c = true := by
  simp [numChar, h]

theorem map_commaToDot_of_digits :
    ∀ l : List Char, l.all Char.isDigit = true → l.map commaToDot = l := by
  intro l hl
  induction l with
  | nil => rfl
  | cons c t ih =>
    rw [List.all_cons, Bool.and_eq_true] at hl
    simp only [List.map_cons, ih hl.2, List.cons.injEq, and_true]
    simp [commaToDot, digit_ne_comma hl.1]

theorem unsignedNumTok_struct (l : List Char) (h : unsignedNumTok l = true) :
    ∃ intp rest, l = intp ++ rest ∧ intp ≠ [] ∧ intp.all Char.isDigit = true ∧
      (rest = [] ∨ ∃ c tl, rest = c :: tl ∧ (c = '.' ∨ c = ',') ∧ tl ≠ [] ∧
        tl.all Char.isDigit = true) := by
  refine ⟨l.takeWhile Char.isDigit, l.dropWhile Char.isDigit,
    (List.takeWhile_append_dropWhile Char.isDigit l).symm, ?_, ?_, ?_⟩
  · unfold unsignedNumTok at h
    rw [Bool.and_eq_true] at h
    intro he
    rw [he] at h
    exact absurd h.1 (by decide)
  · rw [List.all_eq_true]
    exact fun c hc => List.mem_takeWhile_imp hc
  · unfold unsignedNumTok at h
    rw [Bool.and_eq_true] at h
    rcases hrest : l.dropWhile Char.isDigit with _ | ⟨c, tl⟩
    · exact Or.inl rfl
    · refine Or.inr ⟨c, tl, rfl, ?_⟩
      rw [hrest] at h
      have h2 := h.2
      rw [Bool.or_eq_true] at h2
      rcases h2 with h2 | h2
      · exact absurd h2 (by simp)
      · rw [Bool.and_eq_true, Bool.or_eq_true, Bool.and_eq_true] at h2
        refine ⟨?_, ?_, h2.2.2⟩
        · rcases h2.1 with h3 | h3
          · exact Or.inl (by simpa using h3)
          · exact Or.inr (by simpa using h3)
        · intro he
          rw [he] at h2
          exact absurd h2.2.1 (by decide)

theorem all_numChar_of_unsigned (l : List Char) (h : unsignedNumTok l = true) :
    l.all numChar = true := by
  obtain ⟨intp, rest, rfl, _, h2, hrest⟩ := unsignedNumTok_struct l h
  rw [List.all_append, Bool.and_eq_true]
  constructor
  · rw [List.all_eq_true] at h2 ⊢
    exact fun c hc => digit_numChar (h2 c hc)
  · rcases hrest with rfl | ⟨c, tl, rfl, hc, _, htl⟩
    · rfl
    · rw [List.all_cons, Bool.and_eq_true]
      constructor
      · rcases hc with rfl | rfl <;> decide
      · rw [List.all_eq_true] at htl ⊢
        exact fun d hd => digit_numChar (htl d hd)

theorem pyFloatCore_digits (intp : List Char) (h1 : intp ≠ [])
    (h2 : intp.all Char.isDigit = true) :
    pyFloatCore intp = some (mkRat (natOfDigits intp) 1) := by
  have ht := tw_append intp [] h2 (fun c tl h => by cases h)
  rw [List.append_nil] at ht
  unfold pyFloatCore
  rw [ht.1, ht.2]
  cases intp with
  | nil => exact absurd rfl h1
  | cons c t => rfl

theorem pyFloatCore_digits_sep (intp tl : List Char) (h1 : intp ≠ [])
    (h2 : intp.all Char.isDigit = true) (h3 : tl.all Char.isDigit = true) :
    pyFloatCore (intp ++ '.' :: tl) =
      some (mkRat (natOfDigits intp * 10 ^ tl.length + natOfDigits tl)
        (10 ^ tl.length)) := by
  have ht := tw_append (p := Char.isDigit) intp ('.' :: tl) h2
    (fun c tl' h => by injection h with h1 _; rw [← h1]; decide)
  unfold pyFloatCore
  rw [ht.1, ht.2]
  have hint : intp.isEmpty = false := by
    cases intp with
    | nil => exact absurd rfl h1
    | cons c t => rfl
  simp [h3, hint]

theorem pyFloatOfChars_cons_digit (c : Char) (l : List Char)
    (hc : c.isDigit = true) :
    pyFloatOfChars (c :: l) = pyFloatCore (c :: l) := by
  simp only [pyFloatOfChars]
  rw [if_neg (digit_ne_minus hc), if_neg (digit_ne_plus hc)]

theorem pyFloatCore_of_unsigned (l : List Char) (h : unsignedNumTok l = true) :
    (pyFloatCore (l.map commaToDot)).isSome = true := by
  obtain ⟨intp, rest, rfl, h1, h2, hrest⟩ := unsignedNumTok_struct l h
  rw [List.map_append, map_commaToDot_of_digits intp h2]
  rcases hrest with rfl | ⟨c, tl, rfl, hc, _, htl⟩
  · rw [List.map_nil, List.append_nil, pyFloatCore_digits intp h1 h2]
    rfl
  · have hmap : (c :: tl).map commaToDot = '.' :: tl := by
      rw [List.map_cons, map_commaToDot_of_digits tl htl]
      rcases hc with rfl | rfl <;> rfl
    rw [hmap, pyFloatCore_digits_sep intp tl h1 h2 htl]
    rfl

theorem head_digit_of_unsigned (c : Char) (l : List Char)
    (h : unsignedNumTok (c :: l) = true) : c.isDigit = true := by
  obtain ⟨intp, rest, heq, h1, h2, _⟩ := unsignedNumTok_struct _ h
  cases intp with
  | nil => exact absurd rfl h1
  | cons d t =>
    rw [List.cons_append] at heq
    injection heq with heq1 _
    rw [List.all_cons, Bool.and_eq_true] at h2
    rw [heq1]; exact h2.1

theorem string_ne_empty_of_data {s : String} {c : Char} {l : List Char}
    (h : s.data = c :: l) : s ≠ "" := by
  intro he
  subst he
  exact List.noConfusion h

theorem parse_number_isSome_of_token (t : String)
    (h : is_number_token t = true) : (parse_number t).isSome = true := by
  unfold is_number_token at h
  rcases hd : t.data with _ | ⟨c, l⟩
  · rw [hd] at h; exact absurd h (by decide)
  · rw [hd] at h
    change (if c = '-' then unsignedNumTok l
      else unsignedNumTok (c :: l)) = true at h
    have hne : t ≠ "" := string_ne_empty_of_data hd
    unfold parse_number
    rw [if_neg hne, hd]
    by_cases hc : c = '-'
    · subst hc
      rw [if_pos rfl] at h
      have hall : ('-' :: l).all numChar = true := by
        rw [List.all_cons, Bool.and_eq_true]
        exact ⟨by decide, all_numChar_of_unsigned l h⟩
      simp only [filter_eq_self_of_all _ _ hall]
      rw [if_neg (by simp)]
      rw [List.map_cons]
      have hdot : commaToDot '-' = '-' := rfl
      rw [hdot]
      simp only [pyFloatOfChars, if_true]
      rw [show ∀ o : Option Rat, (Option.map (fun q : Rat => -q) o).isSome
          = o.isSome from fun o => by cases o <;> rfl]
      exact pyFloatCore_of_unsigned l h
    · rw [if_neg hc] at h
      have hall : (c :: l).all numChar = true := all_numChar_of_unsigned _ h
      simp only [filter_eq_self_of_all _ _ hall]
      rw [if_neg (by simp)]
      have hcd : c.isDigit = true := head_digit_of_unsigned c l h
      have hcc : commaToDot c = c := by
        simp [commaToDot, digit_ne_comma hcd]
      rw [List.map_cons, hcc, pyFloatOfChars_cons_digit c _ hcd]
      have h2 := pyFloatCore_of_unsigned _ h
      rw [List.map_cons, hcc] at h2
      exact h2

theorem mk_ne_empty_of_ne_nil {l : List Char} (h : l ≠ []) :
    String.mk l ≠ "" := by
  intro he
  exact h (congrArg String.data he)

theorem splitWsGo_mem_ne :
    ∀ (l acc : List Char) (t : String), t ∈ splitWsGo acc l → t ≠ "" := by
  intro l
  induction l with
  | nil =>
    intro acc t h
    unfold splitWsGo at h
    by_cases hacc : acc.isEmpty
    · rw [if_pos hacc] at h
      exact absurd h (List.not_mem_nil t)
    · rw [if_neg hacc] at h
      rw [List.mem_singleton] at h
      subst h
      refine mk_ne_empty_of_ne_nil ?_
      simp only [ne_eq, List.reverse_eq_nil_iff]
      simpa [List.isEmpty_iff] using hacc
  | cons c rest ih =>
    intro acc t h
    unfold splitWsGo at h
    by_cases hw : c.isWhitespace
    · rw [if_pos hw] at h
      rcases List.mem_append.mp h with h1 | h2
      · by_cases hacc : acc.isEmpty
        · rw [if_pos hacc] at h1
          exact absurd h1 (List.not_mem_nil t)
        · rw [if_neg hacc] at h1
          rw [List.mem_singleton] at h1
          subst h1
          refine mk_ne_empty_of_ne_nil ?_
          simp only [ne_eq, List.reverse_eq_nil_iff]
          simpa [List.isEmpty_iff] using hacc
      · exact ih [] t h2
    · rw [if_neg hw] at h
      exact ih (c :: acc) t h

theorem mem_pySplit_ne (s t : String) (h : t ∈ pySplit s) : t ≠ "" :=
  splitWsGo_mem_ne s.data [] t h

theorem joinSpace_ne_empty (d : String) (ds : List String) (hd : d ≠ "") :
    joinSpace (d :: ds) ≠ "" := by
  cases ds with
  | nil => simpa [joinSpace] using hd
  | cons e es =>
    show d ++ " " ++ joinSpace (e :: es) ≠ ""
    intro h
    have hlen : (d ++ " " ++ joinSpace (e :: es)).length = 0 := by rw [h]; rfl
    rw [String.length_append, String.length_append,
      show (" " : String).length = 1 from rfl] at hlen
    omega

theorem bool_triple_and {a b c : Bool} (h : ¬(!(a && b && c)) = true) :
    a = true ∧ b = true ∧ c = true := by
  rcases a <;> rcases b <;> rcases c <;> simp_all

theorem parse_invoice_line_fields (text : String) (r : InvoiceLine)
    (h : parse_invoice_line text = some r) :
    strHasDigit r.reference = true ∧ r.reference ≠ "" ∧ r.description ≠ "" ∧
    r.quantity.isSome = true ∧ r.unit_price.isSome = true ∧
    r.line_total.isSome = true := by
  simp only [parse_invoice_line] at h
  split at h
  · exact absurd h (by simp)
  · split at h
    · exact absurd h (by simp)
    · split at h
      · split at h
        · exact absurd h (by simp)
        · split at h
          · exact absurd h (by simp)
          · split at h
            · exact absurd h (by simp)
            · split at h
              · split at h
                · exact absurd h (by simp)
                · split at h
                  · exact absurd h (by simp)
                  · rename_i h5 h4 toks1 amountTok unitTok qtyTok headRev
                      heq1 hnum hsep1 hsep2 toks2 ref descTokens heq2 href
                      hdescEmpty
                    injection h with h
                    subst h
                    obtain ⟨ha, hu, hq⟩ := bool_triple_and hnum
                    have hrefd : strHasDigit ref = true := by
                      simpa using href
                    refine ⟨hrefd, ?_, ?_, parse_number_isSome_of_token _ hq,
                      parse_number_isSome_of_token _ hu,
                      parse_number_isSome_of_token _ ha⟩
                    · show ref ≠ ""
                      intro he
                      rw [he] at hrefd
                      exact absurd hrefd (by decide)
                    · show joinSpace descTokens ≠ ""
                      cases descTokens with
                      | nil => exact absurd rfl hdescEmpty
                      | cons d ds =>
                        refine joinSpace_ne_empty d ds ?_
                        have hmem1 : d ∈ headRev := by
                          refine List.mem_reverse.mp ?_
                          rw [heq2]
                          exact List.mem_cons_of_mem _ (List.mem_cons_self d ds)
                        have hmem2 := List.mem_reverse.mp (by
                          rw [heq1]
                          exact List.mem_cons_of_mem _ (List.mem_cons_of_mem _
                            (List.mem_cons_of_mem _ hmem1)))
                        have hmem3 : d ∈ pySplit text := by
                          rcases hlast : (pySplit text).getLast? with _ | lastTok
                          · rw [hlast] at hmem2
                            simpa using hmem2
                          · rw [hlast] at hmem2
                            simp only [] at hmem2
                            by_cases hp : is_percent_token lastTok = true
                            · rw [if_pos hp] at hmem2
                              simp only [] at hmem2
                              exact (List.dropLast_sublist _).mem hmem2
                            · rw [if_neg hp] at hmem2
                              simpa using hmem2
                        exact mem_pySplit_ne text d hmem3
              · exact absurd h (by simp)
      · exact absurd h (by simp)

/-! ### Pipeline lemmas -/

theorem processLines_mem (tt : String) (pg : Nat) :
    ∀ (ls : List String) (buffer : String) (c : Nat) (r : LineRec),
      r ∈ processLines tt pg buffer c ls →
      r.page = pg ∧ parse_invoice_line r.candidate = some r.payload := by
  intro ls
  induction ls with
  | nil =>
    intro buffer c r h
    exact absurd h (List.not_mem_nil r)
  | cons rawLine rest ih =>
    intro buffer c r h
    simp only [processLines] at h
    repeat' split at h
    all_goals first
    | exact ih _ _ r h
    | (rename_i parsed heqp
       rcases List.mem_cons.mp h with rfl | h2
       · exact ⟨rfl, heqp⟩
       · exact ih _ _ r h2)

theorem processLines_rows (tt : String) (pg : Nat) :
    ∀ (ls : List String) (buffer : String) (c : Nat),
      (processLines tt pg buffer c ls).map (fun r => r.row) =
        List.range' (c + 1) (processLines tt pg buffer c ls).length := by
  intro ls
  induction ls with
  | nil => intro buffer c; rfl
  | cons rawLine rest ih =>
    intro buffer c
    simp only [processLines]
    repeat' split
    all_goals first
    | exact ih _ _
    | rw [List.map_cons, ih _ _, List.length_cons, List.range'_succ]

theorem extractFrom_mem (tt : String) :
    ∀ (pages : List String) (pg0 : Nat) (r : LineRec),
      r ∈ extractFrom tt pg0 pages →
      pg0 ≤ r.page ∧ parse_invoice_line r.candidate = some r.payload := by
  intro pages
  induction pages with
  | nil =>
    intro pg0 r h
    exact absurd h (List.not_mem_nil r)
  | cons text rest ih =>
    intro pg0 r h
    simp only [extractFrom] at h
    rcases List.mem_append.mp h with h1 | h2
    · have := processLines_mem tt pg0 _ _ _ r h1
      exact ⟨Nat.le_of_eq this.1.symm, this.2⟩
    · have := ih (pg0 + 1) r h2
      exact ⟨Nat.le_of_succ_le this.1, this.2⟩

theorem extractFrom_filter_rows (tt : String) :
    ∀ (pages : List String) (pg0 p : Nat),
      ((extractFrom tt pg0 pages).filter (fun r => r.page == p)).map
          (fun r => r.row) =
        List.range' 1
          ((extractFrom tt pg0 pages).filter (fun r => r.page == p)).length := by
  intro pages
  induction pages with
  | nil => intro pg0 p; rfl
  | cons text rest ih =>
    intro pg0 p
    simp only [extractFrom, List.filter_append]
    by_cases hp : p = pg0
    · subst hp
      have h1 : (processPage tt p text).filter (fun r => r.page == p) =
          processPage tt p text := by
        rw [List.filter_eq_self]
        intro r hr
        have := (processLines_mem tt p _ _ _ r hr).1
        simp [this]
      have h2 : (extractFrom tt (p + 1) rest).filter (fun r => r.page == p) =
          [] := by
        rw [List.filter_eq_nil_iff]
        intro r hr
        have := (extractFrom_mem tt rest (p + 1) r hr).1
        simp only [beq_iff_eq]
        omega
      rw [h1, h2, List.append_nil]
      exact processLines_rows tt p _ _ _
    · have h1 : (processPage tt pg0 text).filter (fun r => r.page == p) =
          [] := by
        rw [List.filter_eq_nil_iff]
        intro r hr
        have := (processLines_mem tt pg0 _ _ _ r hr).1
        simp only [beq_iff_eq]
        omega
      rw [h1, List.nil_append]
      exact ih (pg0 + 1) p

/-- C6: in every extraction run the `row` field is the 1-based position of
the record among the records of its page, in emission order: for every
page number the rows of that page's records read `1, 2, 3, ...`, so the
counter is 1-based, strictly increasing within a page, and restarts at 1
on each new page. -/
theorem extract_rows_per_page (pages : List String) (templateType : String)
    (p : Nat) :
    ((extract_invoice_lines pages templateType).filter
        (fun r => r.page == p)).map (fun r => r.row) =
      List.range' 1
        ((extract_invoice_lines pages templateType).filter
          (fun r => r.page == p)).length :=
  extractFrom_filter_rows templateType pages 1 p

theorem parse_pdf_lines_eq_map (recs : List LineRec)
    (h : ∀ r ∈ recs, r.payload.reference ≠ "" ∧
      r.payload.quantity.isSome = true) :
    parse_pdf_lines recs = recs.map (fun r =>
      ⟨r.payload.reference, r.payload.description,
        (r.payload.quantity).getD 0⟩) := by
  induction recs with
  | nil => rfl
  | cons r rest ih =>
    have hr := h r (List.mem_cons_self r rest)
    have htl := ih (fun x hx => h x (List.mem_cons_of_mem r hx))
    unfold parse_pdf_lines at htl ⊢
    rw [List.filterMap_cons, List.map_cons, htl]
    rcases hq : r.payload.quantity with _ | q
    · rw [hq] at hr
      exact absurd hr.2 (by decide)
    · simp only [hq, if_neg hr.1, Option.getD_some]

/-- C1: every record emitted by the tokenizer (and hence every payload in
the extraction pipeline's output) has a reference containing at least one
digit, a non-empty description, and quantity, unit price and line total on
which the number normalizer succeeded, so no emitted record carries a
missing numeric field. -/
theorem tokenizer_record_invariants :
    (∀ (text : String) (r : InvoiceLine), parse_invoice_line text = some r →
      strHasDigit r.reference = true ∧ r.description ≠ "" ∧
      r.quantity.isSome = true ∧ r.unit_price.isSome = true ∧
      r.line_total.isSome = true) ∧
    (∀ (pages : List String) (templateType : String) (rec : LineRec),
      rec ∈ extract_invoice_lines pages templateType →
      strHasDigit rec.payload.reference = true ∧
      rec.payload.description ≠ "" ∧
      rec.payload.quantity.isSome = true ∧
      rec.payload.unit_price.isSome = true ∧
      rec.payload.line_total.isSome = true) := by
  constructor
  · intro text r h
    obtain ⟨h1, _, h3, h4, h5, h6⟩ := parse_invoice_line_fields text r h
    exact ⟨h1, h3, h4, h5, h6⟩
  · intro pages templateType rec hmem
    have h := (extractFrom_mem templateType pages 1 rec hmem).2
    obtain ⟨h1, _, h3, h4, h5, h6⟩ := parse_invoice_line_fields _ _ h
    exact ⟨h1, h3, h4, h5, h6⟩

/-- Witness for C1 at the concrete line `"X1 widget 2 1,5 3,0"`. -/
theorem tokenizer_record_invariants_witness :
    strHasDigit sampleLine.reference = true ∧ sampleLine.description ≠ "" ∧
    sampleLine.quantity.isSome = true ∧ sampleLine.unit_price.isSome = true ∧
    sampleLine.line_total.isSome = true :=
  tokenizer_record_invariants.1 "X1 widget 2 1,5 3,0" sampleLine (by decide)

/-- C2: the page text `"REF001 Widget A 3 10,50 31,50 20%"` yields exactly
one record: page 1, row 1, reference `"REF001"`, description
`"Widget A"`, quantity 3, unit price 10.5, line total 31.5, and the VAT
token `"20%"` kept as the unparsed string. -/
theorem extract_end_to_end_scenario :
    (extract_invoice_lines ["REF001 Widget A 3 10,50 31,50 20%"]
        "facture").map
      (fun r => (r.page, r.row, r.payload.reference, r.payload.description,
        r.payload.quantity, r.payload.unit_price, r.payload.line_total,
        r.payload.tva)) =
    [(1, 1, "REF001", "Widget A", some (3 : Rat), some (10.5 : Rat),
      some (31.5 : Rat), some "20%")] := by
  have h : (extract_invoice_lines ["REF001 Widget A 3 10,50 31,50 20%"]
        "facture").map
      (fun r => (r.page, r.row, r.payload.reference, r.payload.description,
        r.payload.quantity, r.payload.unit_price, r.payload.line_total,
        r.payload.tva)) =
    [(1, 1, "REF001", "Widget A", some (mkRat 3 1), some (mkRat 1050 100),
      some (mkRat 3150 100), some "20%")] := by rfl
  rw [h]
  norm_num [Rat.mkRat_eq_div]

/-- C10: for every successfully decoded and extracted request, the REST
boundary returns exactly one `{reference, description, quantity}` triple
per extracted record, in extraction order: its skip of records with an
empty reference or a missing quantity never drops anything, because every
extracted record has a non-empty reference and a parsed quantity. -/
theorem rest_boundary_complete :
    ∀ (pages : List String) (docType : String),
      parse_pdf_lines (extract_invoice_lines pages (map_doc_type docType)) =
        (extract_invoice_lines pages (map_doc_type docType)).map
          (fun r => ⟨r.payload.reference, r.payload.description,
            (r.payload.quantity).getD 0⟩) := by
  intro pages docType
  refine parse_pdf_lines_eq_map _ ?_
  intro r hr
  have h2 := (extractFrom_mem _ pages 1 r hr).2
  have h3 := parse_invoice_line_fields _ _ h2
  exact ⟨h3.2.1, h3.2.2.2.1⟩

theorem chain2_cases (a b : Option PyVal) :
    (optTruthy (pyOr a b) = true ∧ firstTruthy [a, b] = pyOr a b) ∨
    (optTruthy (pyOr a b) = false ∧ firstTruthy [a, b] = none) := by
  rcases a with _ | va
  · rcases b with _ | vb
    · exact Or.inr ⟨rfl, rfl⟩
    · by_cases h2 : pyTruthy vb
      · exact Or.inl (by simp [pyOr, firstTruthy, optTruthy, h2])
      · exact Or.inr (by simp [pyOr, firstTruthy, optTruthy, h2])
  · by_cases h1 : pyTruthy va
    · exact Or.inl (by simp [pyOr, firstTruthy, optTruthy, h1])
    · rcases b with _ | vb
      · exact Or.inr (by simp [pyOr, firstTruthy, optTruthy, h1])
      · by_cases h2 : pyTruthy vb
        · exact Or.inl (by simp [pyOr, firstTruthy, optTruthy, h1, h2])
        · exact Or.inr (by simp [pyOr, firstTruthy, optTruthy, h1, h2])

theorem chain3_cases (a b c : Option PyVal) :
    (optTruthy (pyOr (pyOr a b) c) = true ∧
      firstTruthy [a, b, c] = pyOr (pyOr a b) c) ∨
    (optTruthy (pyOr (pyOr a b) c) = false ∧
      firstTruthy [a, b, c] = none) := by
  rcases a with _ | va
  · simpa [pyOr, firstTruthy] using chain2_cases b c
  · by_cases h1 : pyTruthy va
    · exact Or.inl (by simp [pyOr, firstTruthy, optTruthy, h1])
    · simpa [pyOr, firstTruthy, h1] using chain2_cases b c

theorem resolveEntry_eq_spec (p : Product) :
    resolveEntry p = specResolveEntry p := by
  unfold resolveEntry specResolveEntry
  rcases chain3_cases (pGet p "product_code") (pGet p "code")
      (pGet p "reference") with ⟨hc, hceq⟩ | ⟨hc, hceq⟩ <;>
    rcases chain2_cases (pGet p "id") (pGet p "product_id")
      with ⟨hi, hieq⟩ | ⟨hi, hieq⟩ <;>
    rw [hceq, hieq] <;>
    rcases hcv : pyOr (pyOr (pGet p "product_code") (pGet p "code"))
      (pGet p "reference") with _ | cv <;>
    rcases hiv : pyOr (pGet p "id") (pGet p "product_id") with _ | iv <;>
    rw [hcv] at hc <;> rw [hiv] at hi <;>
    simp_all [optTruthy]

theorem dictGet_append (d : Dict) (k : String) (kv : String × IndexEntry) :
    dictGet (d ++ [kv]) k = if k = kv.1 then some kv.2 else dictGet d k := by
  unfold dictGet
  rw [List.reverse_append, List.reverse_singleton, List.singleton_append]
  by_cases h : kv.1 = k
  · rw [if_pos h.symm]
    simp [List.find?_cons, h]
  · rw [if_neg (fun he => h he.symm)]
    simp [List.find?_cons, h]

theorem build_index_go :
    ∀ (products : List Product) (d : Dict) (f : String → Option IndexEntry),
      (∀ k, dictGet d k = f k) →
      ∀ k,
        dictGet (products.foldl (fun idx p =>
          match resolveEntry p with
          | some (k, v) => dictSet idx k v
          | none => idx) d) k =
        (products.foldl (fun g p =>
          match specResolveEntry p with
          | some (k, v) => fun s => if s = k then some v else g s
          | none => g) f) k := by
  intro products
  induction products with
  | nil => intro d f hdf k; exact hdf k
  | cons p rest ih =>
    intro d f hdf k
    rw [List.foldl_cons, List.foldl_cons]
    apply ih
    intro k'
    rw [← resolveEntry_eq_spec p]
    rcases hre : resolveEntry p with _ | ⟨kk, vv⟩
    · exact hdf k'
    · show dictGet (dictSet d kk vv) k' = if k' = kk then some vv else f k'
      unfold dictSet
      rw [dictGet_append]
      by_cases h : k' = kk
      · rw [if_pos h, if_pos h]
      · rw [if_neg h, if_neg h]
        exact hdf k'

/-- C3 (amended): the index built by `build_product_index`, read through
dictionary lookup, is the spec-side index: each product resolves its code
and id by first-truthy alias precedence (`product_code`/`code`/`reference`
and `id`/`product_id`, a present but falsy alias falling through), its
stock as the `stock` key when present and otherwise the or-chain over
`quantity`/`stock_quantity`/`stock_level`; an entry is indexed only when
both code and id resolve to truthy values (skipped when either is
missing), and for a duplicated trimmed code the last entry wins. -/
theorem build_index_characterization :
    ∀ (products : List Product) (k : String),
      dictGet (build_product_index products) k = specIndexFun products k := by
  intro products k
  unfold build_product_index specIndexFun
  exact build_index_go products [] (fun _ => none) (fun _ => rfl) k

/-- C3 counterexample: a product carrying a resolvable, truthy code
(`"code": "A1"`) but no id alias is dropped by `build_product_index` — the
built index is empty — contradicting the claim that an entry is skipped
only when it is missing both a resolvable code and a resolvable id. -/
theorem build_index_skips_code_only :
    build_product_index [[("code", PyVal.vstr "A1")]] = [] ∧
    optTruthy (pyOr (pyOr (pGet [("code", PyVal.vstr "A1")] "product_code")
      (pGet [("code", PyVal.vstr "A1")] "code"))
      (pGet [("code", PyVal.vstr "A1")] "reference")) = true :=
  ⟨rfl, by decide⟩

/-- C4 counterexample: with no configured lookup URL, an empty index and a
record with the non-empty reference `"X1"`, the resolver phase leaves the
payload untouched — even verbose mode records no `lookup_status` at all —
so the record's resolution status is not `skipped_no_lookup_url`. -/
theorem no_lookup_url_no_status :
    (resolveAll none [] (fun _ => RespOutcome.transportError "boom") true
        [sampleRec]).map (fun st => st.lookup_status) = [none] ∧
    (resolveAll none [] (fun _ => RespOutcome.transportError "boom") true
        [sampleRec]).map (fun st => st.lookup_status) ≠
      [some "skipped_no_lookup_url"] := by
  refine ⟨rfl, ?_⟩
  intro h
  rw [show (resolveAll none [] (fun _ => RespOutcome.transportError "boom")
      true [sampleRec]).map (fun st => st.lookup_status) = [none] from rfl]
      at h
  exact List.noConfusion h (fun h1 _ => Option.noConfusion h1)

/-- C4 (amended): when no lookup URL is configured the pipeline skips the
resolution phase entirely, so every record's payload is left without any
resolution fields (in particular no `lookup_status`); the status
`skipped_no_lookup_url` is produced only by the lookup helper
`fetch_reference_id` itself when invoked without a URL, an invocation the
pipeline never makes. -/
theorem no_lookup_url_behavior :
    (∀ (index : Dict) (net : String → RespOutcome) (verbose : Bool)
        (recs : List LineRec) (lookupUrl : Option String),
      optStrTruthy lookupUrl = false →
      resolveAll lookupUrl index net verbose recs =
        recs.map (fun _ => {})) ∧
    (∀ resp : RespOutcome,
      fetch_reference_id none resp = (none, "skipped_no_lookup_url", none)) := by
  constructor
  · intro index net verbose recs lookupUrl h
    unfold resolveAll
    rw [if_neg (by simp [h])]
  · intro resp
    rfl

/-- Witness for C4's amended theorem on a concrete record list. -/
theorem no_lookup_url_behavior_witness :
    resolveAll none [] (fun _ => RespOutcome.nonJson "bad") false
      [sampleRec] = [sampleRec].map (fun _ => ({} : Resolution)) ∧
    fetch_reference_id none (RespOutcome.nonJson "bad") =
      (none, "skipped_no_lookup_url", none) :=
  ⟨no_lookup_url_behavior.1 [] (fun _ => RespOutcome.nonJson "bad") false
      [sampleRec] none rfl,
    no_lookup_url_behavior.2 (RespOutcome.nonJson "bad")⟩

/-- C5: the reconciler's delta is `-abs(quantity)` for document type
`"facture"` and `+abs(quantity)` for `"avoir"`; the new stock is
`initial_stock + delta` when the initial stock is present and numeric and
the delta alone otherwise; in particular quantity 4 with initial stock 20
gives delta `-4`, new stock `16` on a facture and delta `+4`, new stock
`24` on an avoir. -/
theorem stock_reconciler_behavior :
    (∀ q : Rat, stockDelta "facture" q = -|q| ∧ stockDelta "avoir" q = |q|) ∧
    (∀ (v : PyVal) (f d : Rat), pyFloatOfVal v = some f →
      newStock (some v) d = f + d) ∧
    (∀ (v : PyVal) (d : Rat), pyFloatOfVal v = none →
      newStock (some v) d = d) ∧
    (∀ d : Rat, newStock none d = d) ∧
    stockDelta "facture" 4 = -4 ∧ newStock (some (PyVal.vnum 20)) (-4) = 16 ∧
    stockDelta "avoir" 4 = 4 ∧ newStock (some (PyVal.vnum 20)) 4 = 24 := by
  refine ⟨?_, ?_, ?_, ?_, ?_, ?_, ?_, ?_⟩
  · intro q
    constructor
    · rw [stockDelta, if_pos rfl]
    · rw [stockDelta, if_neg (by decide)]
  · intro v f d hf
    show (match pyFloatOfVal v with | some f => f + d | none => d) = f + d
    rw [hf]
  · intro v d hf
    show (match pyFloatOfVal v with | some f => f + d | none => d) = d
    rw [hf]
  · intro d
    rfl
  · rw [stockDelta, if_pos rfl]
    norm_num
  · show (20 : Rat) + (-4) = 16
    norm_num
  · rw [stockDelta, if_neg (by decide)]
    norm_num
  · show (20 : Rat) + 4 = 24
    norm_num

/-- Witness for C5's conditional clauses at concrete stocks. -/
theorem stock_reconciler_behavior_witness :
    newStock (some (PyVal.vnum 20)) (-4) = 20 + (-4) ∧
    newStock (some (PyVal.vstr "n/a")) 7 = 7 :=
  ⟨stock_reconciler_behavior.2.1 (PyVal.vnum 20) 20 (-4) rfl,
    stock_reconciler_behavior.2.2.1 (PyVal.vstr "n/a") 7 (by decide)⟩

theorem ignoreParts_facture (tt : String) (h : strLower tt = "facture") :
    ignoreParts tt = ["REFERENCE DESIGNATION", "Bon de livraison",
      "Commande client", "Sous Total", "Total TTC", "Total HT", "RIB",
      "Facture"] := by
  unfold ignoreParts
  rw [h, if_pos rfl]
  rfl

theorem ignoreParts_avoir (tt : String) (h : strLower tt = "avoir") :
    ignoreParts tt = ["REFERENCE DESIGNATION", "Bon de livraison",
      "Commande client", "Sous Total", "Total TTC", "Total HT", "RIB",
      "Avoir"] := by
  unfold ignoreParts
  rw [h, if_neg (by decide), if_pos rfl]
  rfl

theorem ignoreParts_other (tt : String) (h1 : strLower tt ≠ "facture")
    (h2 : strLower tt ≠ "avoir") :
    ignoreParts tt = ["REFERENCE DESIGNATION", "Bon de livraison",
      "Commande client", "Sous Total", "Total TTC", "Total HT", "RIB",
      "Facture", "Avoir"] := by
  unfold ignoreParts
  rw [if_neg h1, if_neg h2]
  rfl

/-- C7: a candidate containing `"Total TTC"` (case-insensitively) is
dropped for every document type; a candidate containing `"Facture"` and no
other ignore keyword is dropped exactly when the lower-cased document type
is not `"avoir"` — i.e. for `"facture"` and for unknown/unspecified types,
but not for `"avoir"`. -/
theorem ignore_filter_behavior :
    (∀ (templateType candidate : String),
      strContainsCI candidate "Total TTC" = true →
      ignoreMatch templateType candidate = true) ∧
    (∀ (templateType candidate : String),
      strContainsCI candidate "Facture" = true →
      strContainsCI candidate "REFERENCE DESIGNATION" = false →
      strContainsCI candidate "Bon de livraison" = false →
      strContainsCI candidate "Commande client" = false →
      strContainsCI candidate "Sous Total" = false →
      strContainsCI candidate "Total TTC" = false →
      strContainsCI candidate "Total HT" = false →
      strContainsCI candidate "RIB" = false →
      strContainsCI candidate "Avoir" = false →
      ignoreMatch templateType candidate =
        !(strLower templateType == "avoir")) := by
  constructor
  · intro tt c h
    unfold ignoreMatch
    rw [List.any_eq_true]
    refine ⟨"Total TTC", ?_, h⟩
    by_cases hf : strLower tt = "facture"
    · rw [ignoreParts_facture tt hf]; simp
    · by_cases ha : strLower tt = "avoir"
      · rw [ignoreParts_avoir tt ha]; simp
      · rw [ignoreParts_other tt hf ha]; simp
  · intro tt c hf h1 h2 h3 h4 h5 h6 h7 h8
    unfold ignoreMatch
    by_cases ha : strLower tt = "avoir"
    · rw [show (strLower tt == "avoir") = true from beq_iff_eq.mpr ha,
        Bool.not_true, ignoreParts_avoir tt ha]
      simp only [List.any_cons, List.any_nil, h1, h2, h3, h4, h5, h6, h7,
        h8, Bool.or_self, Bool.or_false]
    · rw [show (strLower tt == "avoir") = false from
        beq_eq_false_iff_ne.mpr ha, Bool.not_false]
      by_cases hfa : strLower tt = "facture"
      · rw [ignoreParts_facture tt hfa]
        simp only [List.any_cons, List.any_nil, hf, Bool.or_true,
          Bool.true_or, Bool.or_self, Bool.or_false]
      · rw [ignoreParts_other tt hfa ha]
        simp only [List.any_cons, List.any_nil, hf, Bool.or_true,
          Bool.true_or, Bool.or_self, Bool.or_false]

/-- Witness for C7 at concrete candidates and document types. -/
theorem ignore_filter_behavior_witness :
    ignoreMatch "avoir" "ref total ttc 3" = true ∧
    ignoreMatch "avoir" "une Facture arrivée" =
      !(strLower "avoir" == "avoir") ∧
    ignoreMatch "facture" "une Facture arrivée" =
      !(strLower "facture" == "avoir") ∧
    ignoreMatch "" "une Facture arrivée" = !(strLower "" == "avoir") :=
  ⟨ignore_filter_behavior.1 "avoir" "ref total ttc 3" (by decide),
    ignore_filter_behavior.2 "avoir" "une Facture arrivée" (by decide)
      (by decide) (by decide) (by decide) (by decide) (by decide)
      (by decide) (by decide) (by decide),
    ignore_filter_behavior.2 "facture" "une Facture arrivée" (by decide)
      (by decide) (by decide) (by decide) (by decide) (by decide)
      (by decide) (by decide) (by decide),
    ignore_filter_behavior.2 "" "une Facture arrivée" (by decide)
      (by decide) (by decide) (by decide) (by decide) (by decide)
      (by decide) (by decide) (by decide)⟩

/-- C8: the number normalizer behaves exactly as specified — it strips all
characters outside `[0-9,.\-]`, is not-numeric on an empty remainder,
else replaces commas by dots and parses a float, not-numeric on a
malformed remainder; `"1 234,56 €"` gives `1234.56`, while `""` and
`"12.34.56"` are not numeric. -/
theorem number_normalizer_behavior :
    (∀ raw : String, parse_number raw = parseNumberSpec raw) ∧
    parse_number "1 234,56 €" = some (1234.56 : Rat) ∧
    parse_number "" = none ∧
    parse_number "12.34.56" = none := by
  refine ⟨?_, ?_, by decide, by decide⟩
  · intro raw
    by_cases h : raw = ""
    · subst h; rfl
    · unfold parse_number parseNumberSpec
      rw [if_neg h]
  · have h : parse_number "1 234,56 €" = some (mkRat 123456 100) := by decide
    rw [h]
    norm_num [Rat.mkRat_eq_div]

/-- C9: for a single-item lookup with a configured (truthy) URL, a
transport exception yields no id and status `http_error`; a non-JSON body
yields no id and status `invalid_json`; a JSON body is inspected in the
spec's precedence order — top-level `id`, nested `data` dict with `id`,
nested `data` list whose first element is a dict with `id`, bare list
whose first element is a dict with `id` — the first match yielding the
stringified id with status `ok`, and no match yielding status `no_id`. -/
theorem fetch_reference_id_behavior :
    ∀ url : String, url ≠ "" →
      (∀ e, fetch_reference_id (some url) (RespOutcome.transportError e) =
        (none, "http_error", some e)) ∧
      (∀ e, fetch_reference_id (some url) (RespOutcome.nonJson e) =
        (none, "invalid_json", some e)) ∧
      (∀ data : Json,
        fetch_reference_id (some url) (RespOutcome.json data) =
          (match specShapeId data with
            | some idv => (some (jStr idv), "ok", none)
            | none => ((none : Option String), "no_id",
                (none : Option String)))) := by
  intro url hurl
  have htr : (!optStrTruthy (some url)) = false := by
    simp [optStrTruthy, hurl]
  refine ⟨fun e => ?_, fun e => ?_, fun data => ?_⟩
  · unfold fetch_reference_id
    rw [htr, if_neg (by decide)]
  · unfold fetch_reference_id
    rw [htr, if_neg (by decide)]
  · unfold fetch_reference_id
    rw [htr, if_neg (by decide)]
    rcases data with _ | b | q | st | items | fields
    · rfl
    · rfl
    · rfl
    · rfl
    · rcases items with _ | ⟨first, restItems⟩
      · rfl
      · rcases first with _ | b2 | q2 | st2 | items2 | ff
        · rfl
        · rfl
        · rfl
        · rfl
        · rfl
        · rcases hgi : jGet ff "id" with _ | idv <;>
            simp [specShapeId, Option.or, hgi]
    · rcases hid : jGet fields "id" with _ | idv
      · rcases hdata : jGet fields "data" with _ | v
        · simp [specShapeId, Option.or, hid, hdata]
        · rcases v with _ | b2 | q2 | st2 | items2 | inner
          · simp [specShapeId, Option.or, hid, hdata]
          · simp [specShapeId, Option.or, hid, hdata]
          · simp [specShapeId, Option.or, hid, hdata]
          · simp [specShapeId, Option.or, hid, hdata]
          · rcases items2 with _ | ⟨first2, rest2⟩
            · simp [specShapeId, Option.or, hid, hdata]
            · rcases first2 with _ | b3 | q3 | st3 | items3 | ff2
              · simp [specShapeId, Option.or, hid, hdata]
              · simp [specShapeId, Option.or, hid, hdata]
              · simp [specShapeId, Option.or, hid, hdata]
              · simp [specShapeId, Option.or, hid, hdata]
              · simp [specShapeId, Option.or, hid, hdata]
              · rcases hii2 : jGet ff2 "id" with _ | idv2 <;>
                  simp [specShapeId, Option.or, hid, hdata, hii2]
          · rcases hii : jGet inner "id" with _ | idv2 <;>
              simp [specShapeId, Option.or, hid, hdata, hii]
      · simp [specShapeId, Option.or, hid]

/-- Witness for C9 at a concrete URL and concrete response bodies. -/
theorem fetch_reference_id_behavior_witness :
    fetch_reference_id (some "http://api/{reference}")
        (RespOutcome.transportError "timeout") =
      (none, "http_error", some "timeout") ∧
    fetch_reference_id (some "http://api/{reference}")
        (RespOutcome.nonJson "bad body") =
      (none, "invalid_json", some "bad body") ∧
    fetch_reference_id (some "http://api/{reference}")
        (RespOutcome.json (Json.jobj [("id", Json.jnum 5)])) =
      (match specShapeId (Json.jobj [("id", Json.jnum 5)]) with
        | some idv => (some (jStr idv), "ok", none)
        | none => ((none : Option String), "no_id",
            (none : Option String))) :=
  ⟨((fetch_reference_id_behavior "http://api/{reference}"
      (by decide)).1) "timeout",
    ((fetch_reference_id_behavior "http://api/{reference}"
      (by decide)).2.1) "bad body",
    ((fetch_reference_id_behavior "http://api/{reference}"
      (by decide)).2.2) (Json.jobj [("id", Json.jnum 5)])⟩

end Pdf2Json
